import Mathlib

/-!
Verification of the LREC club-automation tools.

The repository contains two Go pipelines: a notice generator
(scripts/source/notice-generator/notice-generator.go) and a certificate
pipeline (roster/attendance/calendar loading, certificate rendering and
mailing).  This file gives a shallow embedding of the data model and the
decision logic of both pipelines and proves the specified properties.

Modelling conventions:
* Go strings are modelled as lists of characters (`Str`).  Go compares
  strings byte-wise; for the ASCII data handled here this agrees with the
  character-wise lexicographic order used below.
* `strings.ToLower` / `strings.TrimSpace` are modelled on ASCII input
  (the column keywords and date formats involved are all ASCII).
* `time.Time` values are modelled as an `Int` count of seconds on the
  proleptic Gregorian calendar (via `daysFromCivil`), which is exactly the
  information the programs compare and subtract.  Sub-second fractions in
  RFC3339 input are truncated by this representation.
* Fallible Go functions returning `(T, error)` are modelled as
  `Except Str T`; I/O effects (SMTP dialing, PDF writing) are modelled by
  explicit oracle arguments.
-/

abbrev Str := List Char

/-- ASCII lower-casing of one character (models Go `strings.ToLower` on the
ASCII input handled by the loaders). -/
def lowerChar (c : Char) : Char :=
  if 65 ≤ c.toNat ∧ c.toNat ≤ 90 then Char.ofNat (c.toNat + 32) else c

def lowerStr (s : Str) : Str := s.map lowerChar

/-- ASCII whitespace, models `unicode.IsSpace` on ASCII input
(space, tab, newline, carriage return, vertical tab, form feed). -/
def isSpaceChar (c : Char) : Bool :=
  c == ' ' || c == '\t' || c == '\n' || c == '\r' || c.toNat == 11 || c.toNat == 12

/-- Models Go `strings.TrimSpace`. -/
def trimSpace (s : Str) : Str :=
  ((s.dropWhile isSpaceChar).reverse.dropWhile isSpaceChar).reverse

/-- `isStartOf p s` holds when `p` is a leading segment of `s`. -/
def isStartOf : Str → Str → Bool
  | [], _ => true
  | _ :: _, [] => false
  | p :: ps, c :: cs => p == c && isStartOf ps cs

/-- Models Go `strings.Contains`. -/
def containsStr : Str → Str → Bool
  | [], pat => pat.isEmpty
  | c :: rest, pat => isStartOf pat (c :: rest) || containsStr rest pat

/-- Lexicographic order on strings; models Go `<` on (ASCII) strings. -/
def strLt : Str → Str → Bool
  | [], [] => false
  | [], _ :: _ => true
  | _ :: _, [] => false
  | a :: as, b :: bs => if a = b then strLt as bs else decide (a < b)

/-- Models Go `strings.Split` with a one-character separator. -/
def splitOnChar (sep : Char) : Str → List Str
  | [] => [[]]
  | c :: rest =>
    if c = sep then [] :: splitOnChar sep rest
    else
      match splitOnChar sep rest with
      | [] => [[c]]
      | h :: t => (c :: h) :: t

def isDigitCh (c : Char) : Bool := 48 ≤ c.toNat && c.toNat ≤ 57

def digitVal (c : Char) : Nat := c.toNat - 48

/-- Exactly two digits (a zero-padded field such as layout `01` or `02`). -/
def num2 : Str → Option (Nat × Str)
  | a :: b :: rest =>
    if isDigitCh a && isDigitCh b then some (digitVal a * 10 + digitVal b, rest) else none
  | _ => none

/-- One or two digits (an unpadded field such as layout `1` or `2`); Go's
`getnum` takes a second digit when one is present. -/
def num1or2 : Str → Option (Nat × Str)
  | a :: b :: rest =>
    if isDigitCh a then
      if isDigitCh b then some (digitVal a * 10 + digitVal b, rest)
      else some (digitVal a, b :: rest)
    else none
  | [a] => if isDigitCh a then some (digitVal a, []) else none
  | [] => none

/-- Exactly four digits (the year field of layout `2006`). -/
def num4 : Str → Option (Nat × Str)
  | a :: b :: c :: d :: rest =>
    if isDigitCh a && isDigitCh b && isDigitCh c && isDigitCh d then
      some (((digitVal a * 10 + digitVal b) * 10 + digitVal c) * 10 + digitVal d, rest)
    else none
  | _ => none

def expectChar (c : Char) : Str → Option Str
  | x :: rest => if x = c then some rest else none
  | [] => none

/-- Case-insensitive removal of a leading name; models Go's `match` used by
`lookup` in the time package (ASCII case folding). -/
def dropNameCI (nm s : Str) : Option Str :=
  if lowerStr (s.take nm.length) = nm then some (s.drop nm.length) else none

/-- Models `lookup(tab, value)` from Go's time package: first table entry
that is a (case-insensitive) leading segment of the value wins. -/
def lookupName : List (Str × Nat) → Str → Option (Nat × Str)
  | [], _ => none
  | (nm, v) :: rest, s =>
    match dropNameCI nm s with
    | some r => some (v, r)
    | none => lookupName rest s

def shortMonthNames : List (Str × Nat) :=
  [(("jan").toList, 1), (("feb").toList, 2), (("mar").toList, 3),
   (("apr").toList, 4), (("may").toList, 5), (("jun").toList, 6),
   (("jul").toList, 7), (("aug").toList, 8), (("sep").toList, 9),
   (("oct").toList, 10), (("nov").toList, 11), (("dec").toList, 12)]

def longMonthNames : List (Str × Nat) :=
  [(("january").toList, 1), (("february").toList, 2), (("march").toList, 3),
   (("april").toList, 4), (("may").toList, 5), (("june").toList, 6),
   (("july").toList, 7), (("august").toList, 8), (("september").toList, 9),
   (("october").toList, 10), (("november").toList, 11), (("december").toList, 12)]

def isLeapYear (y : Int) : Bool := y % 4 == 0 && (y % 100 != 0 || y % 400 == 0)

def monthLength (y : Int) (m : Nat) : Nat :=
  if m = 2 then (if isLeapYear y then 29 else 28)
  else if m = 4 ∨ m = 6 ∨ m = 9 ∨ m = 11 then 30 else 31

/-- Days since 1970-01-01 of the civil date `y-m-d` (proleptic Gregorian). -/
def daysFromCivil (y : Int) (m d : Nat) : Int :=
  let yy : Int := if m ≤ 2 then y - 1 else y
  let era : Int := (if 0 ≤ yy then yy else yy - 399) / 400
  let yoe : Int := yy - era * 400
  let mp : Int := ((m : Int) + 9) % 12
  let doy : Int := (153 * mp + 2) / 5 + (d : Int) - 1
  let doe : Int := yoe * 365 + yoe / 4 - yoe / 100 + doy
  era * 146097 + doe - 719468

/-- The range validation Go's `time.Parse` applies to a parsed date. -/
def validYMD (y : Int) (m d : Nat) : Bool :=
  1 ≤ m && m ≤ 12 && 1 ≤ d && d ≤ monthLength y m

/-- Midnight UTC of the given civil date, in seconds. -/
def dateSec (y : Int) (m d : Nat) : Int := daysFromCivil y m d * 86400

/-- Finish a date-only layout: the whole value must be consumed
(Go reports `extra text` otherwise) and the date must be in range. -/
def finishDate (y m d : Nat) (rest : Str) : Option Int :=
  match rest with
  | [] => if validYMD (y : Int) m d then some (dateSec (y : Int) m d) else none
  | _ :: _ => none

/-- Layout `2006-01-02`. -/
def pISO (s : Str) : Option Int := do
  let (y, s1) ← num4 s
  let s2 ← expectChar '-' s1
  let (m, s3) ← num2 s2
  let s4 ← expectChar '-' s3
  let (d, s5) ← num2 s4
  finishDate y m d s5

/-- Layout `01/02/2006`. -/
def pMDYpad (s : Str) : Option Int := do
  let (m, s1) ← num2 s
  let s2 ← expectChar '/' s1
  let (d, s3) ← num2 s2
  let s4 ← expectChar '/' s3
  let (y, s5) ← num4 s4
  finishDate y m d s5

/-- Layout `1/2/2006`. -/
def pMDY (s : Str) : Option Int := do
  let (m, s1) ← num1or2 s
  let s2 ← expectChar '/' s1
  let (d, s3) ← num1or2 s2
  let s4 ← expectChar '/' s3
  let (y, s5) ← num4 s4
  finishDate y m d s5

/-- Layout `1/02/2006`. -/
def pMDYmixed1 (s : Str) : Option Int := do
  let (m, s1) ← num1or2 s
  let s2 ← expectChar '/' s1
  let (d, s3) ← num2 s2
  let s4 ← expectChar '/' s3
  let (y, s5) ← num4 s4
  finishDate y m d s5

/-- Layout `01/2/2006`. -/
def pMDYmixed2 (s : Str) : Option Int := do
  let (m, s1) ← num2 s
  let s2 ← expectChar '/' s1
  let (d, s3) ← num1or2 s2
  let s4 ← expectChar '/' s3
  let (y, s5) ← num4 s4
  finishDate y m d s5

/-- Layout `2006/01/02`. -/
def pYMDslash (s : Str) : Option Int := do
  let (y, s1) ← num4 s
  let s2 ← expectChar '/' s1
  let (m, s3) ← num2 s2
  let s4 ← expectChar '/' s3
  let (d, s5) ← num2 s4
  finishDate y m d s5

/-- Layout `02-Jan-2006`. -/
def pDMonY (s : Str) : Option Int := do
  let (d, s1) ← num2 s
  let s2 ← expectChar '-' s1
  let (m, s3) ← lookupName shortMonthNames s2
  let s4 ← expectChar '-' s3
  let (y, s5) ← num4 s4
  finishDate y m d s5

/-- Layout `2-Jan-2006`. -/
def pD1MonY (s : Str) : Option Int := do
  let (d, s1) ← num1or2 s
  let s2 ← expectChar '-' s1
  let (m, s3) ← lookupName shortMonthNames s2
  let s4 ← expectChar '-' s3
  let (y, s5) ← num4 s4
  finishDate y m d s5

/-- Layout `Jan 2, 2006`. -/
def pMonDY (s : Str) : Option Int := do
  let (m, s1) ← lookupName shortMonthNames s
  let s2 ← expectChar ' ' s1
  let (d, s3) ← num1or2 s2
  let s4 ← expectChar ',' s3
  let s5 ← expectChar ' ' s4
  let (y, s6) ← num4 s5
  finishDate y m d s6

/-- Layout `January 2, 2006`. -/
def pMonthDY (s : Str) : Option Int := do
  let (m, s1) ← lookupName longMonthNames s
  let s2 ← expectChar ' ' s1
  let (d, s3) ← num1or2 s2
  let s4 ← expectChar ',' s3
  let s5 ← expectChar ' ' s4
  let (y, s6) ← num4 s5
  finishDate y m d s6

/-- Layout `2 January 2006`. -/
def pDMonthY (s : Str) : Option Int := do
  let (d, s1) ← num1or2 s
  let s2 ← expectChar ' ' s1
  let (m, s3) ← lookupName longMonthNames s2
  let s4 ← expectChar ' ' s3
  let (y, s5) ← num4 s4
  finishDate y m d s5

/-- Layout `2 Jan 2006`. -/
def pDMonY2 (s : Str) : Option Int := do
  let (d, s1) ← num1or2 s
  let s2 ← expectChar ' ' s1
  let (m, s3) ← lookupName shortMonthNames s2
  let s4 ← expectChar ' ' s3
  let (y, s5) ← num4 s4
  finishDate y m d s5

/-- Optional fractional seconds: a dot must be followed by at least one
digit; the fraction is discarded by the second-granularity model. -/
def fracOpt : Str → Option Str
  | '.' :: rest =>
    match rest with
    | c :: _ => if isDigitCh c then some (rest.dropWhile isDigitCh) else none
    | [] => none
  | s => some s

/-- RFC3339 zone designator: `Z` or a signed `hh:mm` offset. -/
def zoneOff : Str → Option (Int × Str)
  | [] => none
  | c :: rest =>
    if c = 'Z' then some (0, rest)
    else if c = '+' || c = '-' then do
      let (zh, r1) ← num2 rest
      let r2 ← expectChar ':' r1
      let (zm, r3) ← num2 r2
      if zh ≤ 23 && zm ≤ 59 then
        some ((if c = '-' then -1 else 1) * ((zh : Int) * 3600 + (zm : Int) * 60), r3)
      else none
    else none

/-- Layout `2006-01-02T15:04:05Z07:00` (RFC3339). -/
def pRFC3339 (s : Str) : Option Int := do
  let (y, s1) ← num4 s
  let s2 ← expectChar '-' s1
  let (mo, s3) ← num2 s2
  let s4 ← expectChar '-' s3
  let (d, s5) ← num2 s4
  let s6 ← expectChar 'T' s5
  let (h, s7) ← num2 s6
  let s8 ← expectChar ':' s7
  let (mi, s9) ← num2 s8
  let s10 ← expectChar ':' s9
  let (sec, s11) ← num2 s10
  let s12 ← fracOpt s11
  let (off, s13) ← zoneOff s12
  if s13.isEmpty && validYMD (y : Int) mo d && h ≤ 23 && mi ≤ 59 && sec ≤ 59 then
    some (dateSec (y : Int) mo d + (h : Int) * 3600 + (mi : Int) * 60 + (sec : Int) - off)
  else none

/-- `for _, format := range formats { if t, err := time.Parse(format, s); err == nil { return t } }`. -/
def tryFormats : List (Str → Option Int) → Str → Option Int
  | [], _ => none
  | f :: fs, s =>
    match f s with
    | some t => some t
    | none => tryFormats fs s

/-- The ordered format list of `parseDate` (notice-generator.go). -/
def noticeFormats : List (Str → Option Int) :=
  [pISO, pMDYpad, pMDY, pYMDslash, pDMonY, pD1MonY, pMonDY, pMonthDY, pRFC3339]

/-- The ordered format list of `parseFlexibleDate` (certificate pipeline). -/
def flexFormats : List (Str → Option Int) :=
  [pMDYpad, pMDY, pMDYmixed1, pMDYmixed2, pISO, pMonthDY, pMonDY, pDMonthY, pDMonY2]

def digitsToNat (ds : List Char) : Nat := ds.foldl (fun acc c => acc * 10 + digitVal c) 0

/-- Exponent suffix of a scanned float token: after `e`/`E`, an optional
sign and at least one digit; otherwise the whole token is invalid. -/
def expAfter (r : Str) : Option Int :=
  let (esign, r1) :=
    match r with
    | '+' :: rr => ((1 : Int), rr)
    | '-' :: rr => ((-1 : Int), rr)
    | rr => ((1 : Int), rr)
  let eds := r1.takeWhile isDigitCh
  if eds.length = 0 then none else some (esign * (digitsToNat eds : Int))

/-- Models the `fmt.Sscanf(dateStr, "%f", &days)` step of `parseDate`
followed by the `days > 0` test and the `int(days)` truncation: leading
spaces are skipped, then an optional sign, decimal digits, an optional
fraction and an optional exponent are scanned from the FRONT of the input
(trailing text is ignored, as `Sscanf` ignores it).  Returns the truncated
day count exactly when scanning succeeds with a strictly positive value.
The special tokens `Inf`/`NaN` are not modelled. -/
def scanSerialDays (s : Str) : Option Nat :=
  let s0 := s.dropWhile isSpaceChar
  let (neg, s1) :=
    match s0 with
    | '+' :: r => (false, r)
    | '-' :: r => (true, r)
    | r => (false, r)
  let intDs := s1.takeWhile isDigitCh
  let s2 := s1.dropWhile isDigitCh
  let (fracDs, s3) :=
    match s2 with
    | '.' :: r => (r.takeWhile isDigitCh, r.dropWhile isDigitCh)
    | r => (([] : List Char), r)
  if intDs.length + fracDs.length = 0 then none
  else
    let expPart : Option Int :=
      match s3 with
      | 'e' :: r => expAfter r
      | 'E' :: r => expAfter r
      | _ => some 0
    match expPart with
    | none => none
    | some ex =>
      let mant := digitsToNat (intDs ++ fracDs)
      if neg || mant = 0 then none
      else
        let e : Int := ex - (fracDs.length : Int)
        some (if 0 ≤ e then mant * 10 ^ e.toNat else mant / 10 ^ (-e).toNat)

def unableMsg (s : Str) : Str := ("unable to parse date: ").toList ++ s

/-- `time.Date(1899, 12, 30, 0, 0, 0, 0, time.UTC)`, in seconds. -/
def excelEpochSec : Int := dateSec 1899 12 30

/-- `parseDate` from notice-generator.go: try the ordered textual formats,
then the spreadsheet-serial fallback, else an error carrying the input. -/
def parseDate (s : Str) : Except Str Int :=
  match tryFormats noticeFormats s with
  | some t => Except.ok t
  | none =>
    match scanSerialDays s with
    | some n => Except.ok (excelEpochSec + (n : Int) * 86400)
    | none => Except.error (unableMsg s)

/-- `parseFlexibleDate` from the certificate pipeline: the ordered textual
formats only, else an error carrying the input. -/
def parseFlexibleDate (s : Str) : Except Str Int :=
  match tryFormats flexFormats s with
  | some t => Except.ok t
  | none => Except.error (unableMsg s)

/-! ## Notice-generator pipeline (notice-generator.go) -/

/-- Event record of the notice generator; `Date` is the already-parsed
`time.Time` (rows whose date fails to parse are skipped by the loader). -/
structure Event where
  Date : Int
  Topic : Str
  Speaker : Str
  Location : Str
  Time : Str
deriving DecidableEq

/-- The selection loop of `main` (notice-generator.go lines 80-92): scan the
events, keeping the future event with the smallest positive `Date - now`;
`diff < minDiff` is strict, so an earlier event wins ties.  The state is
`some (closestEvent, minDiff)` or `none`.  (The loop variable has
per-iteration scope, per current Go semantics.) -/
def closestLoop (now : Int) : List Event → Option (Event × Int) → Option (Event × Int)
  | [], st => st
  | e :: rest, none =>
    if e.Date > now then closestLoop now rest (some (e, e.Date - now))
    else closestLoop now rest none
  | e :: rest, some (c, m) =>
    if e.Date > now then
      (if e.Date - now < m then closestLoop now rest (some (e, e.Date - now))
       else closestLoop now rest (some (c, m)))
    else closestLoop now rest (some (c, m))

def selectClosestFuture (events : List Event) (now : Int) : Option Event :=
  (closestLoop now events none).map Prod.fst

def noFutureMsg : Str := ("No future events found in the spreadsheet.").toList

/-- Outcome of `main` after the spreadsheet has loaded successfully
(notice-generator.go lines 94-128): either the no-future informational
path, or the template/render/write path for the selected event. -/
inductive NoticeOutcome
  | noFutureEvents
  | generateNotice (e : Event)
deriving DecidableEq

def runNotice (events : List Event) (now : Int) : NoticeOutcome :=
  match selectClosestFuture events now with
  | none => NoticeOutcome.noFutureEvents
  | some e => NoticeOutcome.generateNotice e

/-- Exit code determined by the outcome alone: the no-future branch returns
from `main` (exit code 0); the generate branch depends on subsequent
template/file I/O and is left undetermined here. -/
def noticeExitCode : NoticeOutcome → Option Int
  | NoticeOutcome.noFutureEvents => some 0
  | NoticeOutcome.generateNotice _ => none

/-- Whether the outcome reaches `os.Create(output)`. -/
def noticeCreatesFile : NoticeOutcome → Bool
  | NoticeOutcome.noFutureEvents => false
  | NoticeOutcome.generateNotice _ => true

/-- The message printed by the outcome before any file is written. -/
def noticeMessage : NoticeOutcome → Option Str
  | NoticeOutcome.noFutureEvents => some noFutureMsg
  | NoticeOutcome.generateNotice _ => none

/-! ## Certificate-pipeline event selection (getMostRecentEvent) -/

/-- Event record of the certificate pipeline; `Date` is the raw cell text. -/
structure EventInfo where
  Date : Str
  Topic : Str
  Speaker : Str
  Location : Str
  Time : Str
deriving DecidableEq

/-- The `sort.Slice` comparator of `getMostRecentEvent`: when both dates
parse, descending by parsed date (`date1.After(date2)`); otherwise the
lexicographic string fallback (`pastEvents[i].Date > pastEvents[j].Date`). -/
def eventLess (a b : EventInfo) : Bool :=
  match parseFlexibleDate a.Date, parseFlexibleDate b.Date with
  | Except.ok d1, Except.ok d2 => decide (d2 < d1)
  | _, _ => strLt b.Date a.Date

/-- The past-event filter: date parses and is strictly before `now`. -/
def isPastEvent (now : Int) (e : EventInfo) : Bool :=
  match parseFlexibleDate e.Date with
  | Except.ok d => decide (d < now)
  | Except.error _ => false

def insertByLess (less : EventInfo → EventInfo → Bool) (a : EventInfo) :
    List EventInfo → List EventInfo
  | [] => [a]
  | b :: l => if less a b then a :: b :: l else b :: insertByLess less a l

/-- Deterministic model of `sort.Slice pastEvents less`: insertion sort with
the same comparator (`sort.Slice` fixes no order between elements the
comparator treats as equal). -/
def sortByLess (less : EventInfo → EventInfo → Bool) : List EventInfo → List EventInfo
  | [] => []
  | a :: l => insertByLess less a (sortByLess less l)

/-- The selection portion of `getMostRecentEvent` (lines 233-266): fail on an
empty event list, keep the past events, fall back to all events when there
are none, sort with `eventLess` and take the first element. -/
def selectMostRecentEvent (events : List EventInfo) (now : Int) : Option EventInfo :=
  match events with
  | [] => none
  | _ :: _ =>
    let past := events.filter (isPastEvent now)
    let chosen := if past.isEmpty then events else past
    (sortByLess eventLess chosen).head?

/-- Parsed date of an event, defaulting to 0 when parsing fails (used only
to state ordering over events whose dates are known to parse). -/
def parsedKey (e : EventInfo) : Int :=
  match parseFlexibleDate e.Date with
  | Except.ok d => d
  | Except.error _ => 0

/-! ## Column detection -/

def nameKey : Str := ("name").toList
def emailKey : Str := ("email").toList
def dateKey : Str := ("date").toList
def topicKey : Str := ("topic").toList
def speakerKey : Str := ("speaker").toList
def locationKey : Str := ("location").toList
def timeKey : Str := ("time").toList

/-- The notice-generator `readCSV`/`readExcel` header tests compare the
trimmed, lowercased cell for EQUALITY with the keyword. -/
def keyOfCell (c : Str) : Str := lowerStr (trimSpace c)

/-- `readAttendance` header scan (part_001 lines 126-133): first cell whose
lowercasing CONTAINS `name` wins (the loop breaks). -/
def attendanceNameCol : List Str → Nat → Int
  | [], _ => -1
  | c :: rest, i =>
    if containsStr (lowerStr c) nameKey then (i : Int)
    else attendanceNameCol rest (i + 1)

/-- `readRoster` header scan (part_001 lines 312-321): every cell is
examined with no break, an if/else-if chain giving `name` precedence over
`email` within one cell; later matches overwrite earlier ones. -/
def rosterColsLoop : List Str → Nat → Int × Int → Int × Int
  | [], _, st => st
  | c :: rest, i, (nameCol, emailCol) =>
    let cl := lowerStr c
    if containsStr cl nameKey then rosterColsLoop rest (i + 1) ((i : Int), emailCol)
    else if containsStr cl emailKey then rosterColsLoop rest (i + 1) (nameCol, (i : Int))
    else rosterColsLoop rest (i + 1) (nameCol, emailCol)

def rosterCols (header : List Str) : Int × Int := rosterColsLoop header 0 (-1, -1)

structure NoticeCols where
  dateIdx : Int
  topicIdx : Int
  speakerIdx : Int
  locationIdx : Int
  timeIdx : Int
deriving DecidableEq

/-- The header scan of `readCSV`/`readExcel` (notice-generator.go lines
160-173): a `switch` on the trimmed, lowercased cell; every cell is
examined, so a later matching cell overwrites an earlier one. -/
def noticeColsLoop : List Str → Nat → NoticeCols → NoticeCols
  | [], _, st => st
  | c :: rest, i, st =>
    let key := keyOfCell c
    let st2 :=
      if key = dateKey then { st with dateIdx := (i : Int) }
      else if key = topicKey then { st with topicIdx := (i : Int) }
      else if key = speakerKey then { st with speakerIdx := (i : Int) }
      else if key = locationKey then { st with locationIdx := (i : Int) }
      else if key = timeKey then { st with timeIdx := (i : Int) }
      else st
    noticeColsLoop rest (i + 1) st2

def noticeCols (header : List Str) : NoticeCols :=
  noticeColsLoop header 0 ⟨-1, -1, -1, -1, -1⟩

def noticeRequiredErr : Str :=
  ("spreadsheet must have columns: date, topic, speaker, location, time").toList

/-- The required-column check of `readCSV` (lines 175-177): ALL FIVE columns
must have been found; the error names the whole required list. -/
def noticeHeaderCheck (header : List Str) : Except Str NoticeCols :=
  let c := noticeCols header
  if c.dateIdx = -1 ∨ c.topicIdx = -1 ∨ c.speakerIdx = -1 ∨
     c.locationIdx = -1 ∨ c.timeIdx = -1 then
    Except.error noticeRequiredErr
  else Except.ok c

structure CalCols where
  dateCol : Int
  topicCol : Int
  speakerCol : Int
  locationCol : Int
  timeCol : Int
  headerRow : Nat
deriving DecidableEq

/-- One header row of the `getMostRecentEvent` scan (part_001 lines
183-197): substring matching, if/else-if precedence, no break inside a
row, `headerRow` updated whenever a date cell is seen. -/
def calRowScan : List Str → Nat → Nat → CalCols → CalCols
  | [], _, _, st => st
  | c :: rest, i, rowIdx, st =>
    let cl := lowerStr c
    let st2 :=
      if containsStr cl dateKey then { st with dateCol := (i : Int), headerRow := rowIdx }
      else if containsStr cl topicKey then { st with topicCol := (i : Int) }
      else if containsStr cl speakerKey then { st with speakerCol := (i : Int) }
      else if containsStr cl locationKey then { st with locationCol := (i : Int) }
      else if containsStr cl timeKey then { st with timeCol := (i : Int) }
      else st
    calRowScan rest (i + 1) rowIdx st2

/-- The two-row header scan (part_001 lines 179-201): scan the first row,
stop early when date, topic and speaker are all found, otherwise also scan
the second row. -/
def calScan (rows : List (List Str)) : CalCols :=
  match rows with
  | [] => ⟨-1, -1, -1, -1, -1, 0⟩
  | r0 :: rest =>
    let st1 := calRowScan r0 0 0 ⟨-1, -1, -1, -1, -1, 0⟩
    if st1.dateCol ≠ -1 ∧ st1.topicCol ≠ -1 ∧ st1.speakerCol ≠ -1 then st1
    else
      match rest with
      | [] => st1
      | r1 :: _ => calRowScan r1 0 1 st1

def calRequiredErr : Str := ("required columns not found").toList

/-- The required-column check of `getMostRecentEvent` (lines 203-205): only
date, topic and speaker are required; location and time are optional. -/
def calHeaderCheck (rows : List (List Str)) : Except Str CalCols :=
  let st := calScan rows
  if st.dateCol = -1 ∨ st.topicCol = -1 ∨ st.speakerCol = -1 then
    Except.error calRequiredErr
  else Except.ok st

/-! ## Attendees, roster matching, certificate emailing -/

structure Attendee where
  Name : Str
  Email : Str
deriving DecidableEq

/-- `convertNameFormat` (part_001 lines 150-159). -/
def convertNameFormat (name : Str) : Str :=
  let parts := splitOnChar ',' name
  match parts with
  | [p0, p1] => trimSpace p1 ++ ' ' :: trimSpace p0
  | _ => trimSpace name

/-- One step of `matchAttendeesWithEmails` (part_001 lines 343-350): the Go
map is modelled as a lookup function. -/
def matchOneAttendee (roster : Str → Option Str) (a : Attendee) : Attendee :=
  match roster a.Name with
  | some e => { a with Email := e }
  | none => a

def matchAttendeesWithEmails (attendees : List Attendee) (roster : Str → Option Str) :
    List Attendee :=
  attendees.map (matchOneAttendee roster)

def noEmailErr (nm : Str) : Str := ("no email address for attendee ").toList ++ nm

def smtpFailErr (e : Str) : Str := ("failed to send email: ").toList ++ e

/-- `sendIndividualCertificateEmail` (part_001 lines 452-494): an empty
recipient is rejected before any SMTP work with its own error; the SMTP
dial-and-send is an oracle argument whose failure is wrapped in the
`failed to send email` error. -/
def sendIndividualCertificateEmail (smtpSend : Except Str Unit) (a : Attendee) :
    Except Str Unit :=
  if a.Email = [] then Except.error (noEmailErr a.Name)
  else
    match smtpSend with
    | Except.ok _ => Except.ok ()
    | Except.error e => Except.error (smtpFailErr e)

/-- The `sentCount` accumulation of `main` (part_001 lines 83-100):
certificate generation (a file write, modelled by the `certOk` oracle)
failing skips the send; only a successful send increments the count. -/
def certLoopCount (certOk : Attendee → Bool) (smtp : Attendee → Except Str Unit) :
    List Attendee → Nat
  | [] => 0
  | a :: rest =>
    if certOk a then
      match sendIndividualCertificateEmail (smtp a) a with
      | Except.ok _ => certLoopCount certOk smtp rest + 1
      | Except.error _ => certLoopCount certOk smtp rest
    else certLoopCount certOk smtp rest

/-! ## Reference index functions for the column-scan characterizations -/

/-- Index of the first cell satisfying `p`, scanning from position `i`;
`-1` when none does. -/
def firstIdxFrom (p : Str → Bool) : List Str → Nat → Int
  | [], _ => -1
  | c :: rest, i => if p c then (i : Int) else firstIdxFrom p rest (i + 1)

def firstIdx (p : Str → Bool) (l : List Str) : Int := firstIdxFrom p l 0

/-- Index of the last cell satisfying `p`, scanning from position `i` with
accumulator `acc`. -/
def lastIdxFrom (p : Str → Bool) : List Str → Nat → Int → Int
  | [], _, acc => acc
  | c :: rest, i, acc => lastIdxFrom p rest (i + 1) (if p c then (i : Int) else acc)

def lastIdx (p : Str → Bool) (l : List Str) : Int := lastIdxFrom p l 0 (-1)

/-- Branch predicate of the roster/attendance name test. -/
def pNameCell (c : Str) : Bool := containsStr (lowerStr c) nameKey

/-- Branch predicate of the roster email test (shadowed by the name arm of
the else-if chain). -/
def pEmailCell (c : Str) : Bool := !pNameCell c && containsStr (lowerStr c) emailKey

def pDateCell (c : Str) : Bool := decide (keyOfCell c = dateKey)
def pTopicCell (c : Str) : Bool := decide (keyOfCell c = topicKey)
def pSpeakerCell (c : Str) : Bool := decide (keyOfCell c = speakerKey)
def pLocationCell (c : Str) : Bool := decide (keyOfCell c = locationKey)
def pTimeCell (c : Str) : Bool := decide (keyOfCell c = timeKey)

/-- Branch predicates of the calendar scan's else-if chain. -/
def pCalDate (c : Str) : Bool := containsStr (lowerStr c) dateKey
def pCalTopic (c : Str) : Bool := !pCalDate c && containsStr (lowerStr c) topicKey
def pCalSpeaker (c : Str) : Bool :=
  !pCalDate c && !containsStr (lowerStr c) topicKey && containsStr (lowerStr c) speakerKey

/-! ## Helper lemmas -/

lemma splitOnChar_no_sep (c : Char) : ∀ r : Str, c ∉ r → splitOnChar c r = [r] := by
  intro r
  induction r with
  | nil => intro _; rfl
  | cons a r' ih =>
    intro h
    have ha : ¬ a = c := fun hac => h (hac ▸ List.mem_cons_self a r')
    have hr : c ∉ r' := fun hc => h (List.mem_cons_of_mem a hc)
    simp only [splitOnChar, if_neg ha, ih hr]

lemma splitOnChar_sep (c : Char) :
    ∀ l r : Str, c ∉ l → splitOnChar c (l ++ c :: r) = l :: splitOnChar c r := by
  intro l
  induction l with
  | nil => intro r _; simp [splitOnChar]
  | cons a l' ih =>
    intro r h
    have ha : ¬ a = c := fun hac => h (hac ▸ List.mem_cons_self a l')
    have hl : c ∉ l' := fun hc => h (List.mem_cons_of_mem a hc)
    simp only [List.cons_append, splitOnChar, if_neg ha, List.append_eq]
    rw [ih r hl]

lemma splitOnChar_length (c : Char) :
    ∀ s : Str, (splitOnChar c s).length = s.count c + 1 := by
  intro s
  induction s with
  | nil => simp [splitOnChar]
  | cons a s' ih =>
    by_cases ha : a = c
    · subst ha
      simp [splitOnChar, List.count_cons, ih]
    · have hne : (a == c) = false := beq_false_of_ne ha
      rcases hs : splitOnChar c s' with _ | ⟨h, t⟩
      · rw [hs] at ih; simp at ih
      · simp [splitOnChar, if_neg ha, hs, List.count_cons, hne]
        rw [hs] at ih
        simp [List.count_cons, hne] at ih ⊢
        omega

/-! ## C9: convertNameFormat -/

/-- Claim C9: `convertNameFormat` maps `Last,First` (exactly one comma) to
`trim(First) trim(Last)`, and any name whose comma count is not exactly one
passes through trimmed and otherwise unchanged. -/
theorem convertNameFormat_spec (s : Str) :
    (∀ p0 p1 : Str, s = p0 ++ ',' :: p1 → ',' ∉ p0 → ',' ∉ p1 →
        convertNameFormat s = trimSpace p1 ++ ' ' :: trimSpace p0) ∧
    (s.count ',' ≠ 1 → convertNameFormat s = trimSpace s) := by
  constructor
  · intro p0 p1 hs h0 h1
    subst hs
    unfold convertNameFormat
    rw [splitOnChar_sep ',' p0 p1 h0, splitOnChar_no_sep ',' p1 h1]
  · intro hcnt
    have hlen : (splitOnChar ',' s).length ≠ 2 := by
      rw [splitOnChar_length]; omega
    unfold convertNameFormat
    rcases hsp : splitOnChar ',' s with _ | ⟨a, _ | ⟨b, _ | ⟨c, t⟩⟩⟩ <;> try rfl
    rw [hsp] at hlen; simp at hlen

/-- Witness for C9 at the spec's concrete inputs. -/
theorem convertNameFormat_spec_witness :
    convertNameFormat (("Doe, Jon").toList) = ("Jon Doe").toList ∧
    convertNameFormat (("  Jon Doe ").toList) = ("Jon Doe").toList := by
  constructor
  · have h := (convertNameFormat_spec (("Doe, Jon").toList)).1
      (("Doe").toList) ((" Jon").toList) (by decide) (by decide) (by decide)
    rw [h]; decide
  · have h := (convertNameFormat_spec (("  Jon Doe ").toList)).2 (by decide)
    rw [h]; decide

/-! ## C10: matchAttendeesWithEmails frame property -/

/-- Claim C10: matching returns a list of the same length and order, never changes
a Name, sets Email from the roster when the name is present and leaves it
unchanged otherwise. -/
theorem matchFrame_spec (attendees : List Attendee) (roster : Str → Option Str) :
    (matchAttendeesWithEmails attendees roster).length = attendees.length ∧
    (∀ i : Nat, (matchAttendeesWithEmails attendees roster)[i]?
        = (attendees[i]?).map (matchOneAttendee roster)) ∧
    (∀ a : Attendee, (matchOneAttendee roster a).Name = a.Name) ∧
    (∀ a : Attendee, ∀ e : Str, roster a.Name = some e →
        (matchOneAttendee roster a).Email = e) ∧
    (∀ a : Attendee, roster a.Name = none → (matchOneAttendee roster a).Email = a.Email) := by
  refine ⟨List.length_map _ _, ?_, ?_, ?_, ?_⟩
  · intro i; simp [matchAttendeesWithEmails, List.getElem?_map]
  · intro a; unfold matchOneAttendee; rcases h : roster a.Name <;> simp
  · intro a e he; unfold matchOneAttendee; rw [he]
  · intro a he; unfold matchOneAttendee; rw [he]

def exRoster : Str → Option Str :=
  fun n => if n = ("Jon Doe").toList then some (("jon@example.org").toList) else none

def exMatched : Attendee := ⟨("Jon Doe").toList, []⟩

def exUnmatched : Attendee := ⟨("Jane Roe").toList, []⟩

/-- Witness for C10 at a concrete attendee list and roster. -/
theorem matchFrame_spec_witness :
    (matchAttendeesWithEmails [exMatched, exUnmatched] exRoster).length = 2 ∧
    (matchOneAttendee exRoster exMatched).Email = ("jon@example.org").toList ∧
    (matchOneAttendee exRoster exUnmatched).Email = [] := by
  have h := matchFrame_spec [exMatched, exUnmatched] exRoster
  exact ⟨h.1, h.2.2.2.1 exMatched (("jon@example.org").toList) (by decide),
    h.2.2.2.2 exUnmatched (by decide)⟩

/-! ## C7: unmatched attendee keeps empty email, distinct send error -/

/-- Claim C7: an attendee whose name is not in the roster is left unchanged by
matching (so a loaded attendee keeps `Email = []`); sending then fails with
the dedicated no-email error, which differs from every SMTP-level error,
and the attendee contributes nothing to the success count. -/
theorem unmatchedAttendee_spec (attendees : List Attendee) (roster : Str → Option Str)
    (a : Attendee) (smtp : Attendee → Except Str Unit) (certOk : Attendee → Bool)
    (hname : roster a.Name = none) (hmail : a.Email = []) :
    matchOneAttendee roster a = a ∧
    (a ∈ attendees → a ∈ matchAttendeesWithEmails attendees roster) ∧
    (∀ smtpRes : Except Str Unit,
        sendIndividualCertificateEmail smtpRes a = Except.error (noEmailErr a.Name)) ∧
    (∀ e : Str, noEmailErr a.Name ≠ smtpFailErr e) ∧
    (∀ rest : List Attendee,
        certLoopCount certOk smtp (a :: rest) = certLoopCount certOk smtp rest) := by
    have hmatch : matchOneAttendee roster a = a := by unfold matchOneAttendee; rw [hname]
    have hsend : ∀ smtpRes : Except Str Unit,
        sendIndividualCertificateEmail smtpRes a = Except.error (noEmailErr a.Name) := by
      intro smtpRes; unfold sendIndividualCertificateEmail; rw [if_pos hmail]
    refine ⟨hmatch, ?_, hsend, ?_, ?_⟩
    · intro ha
      have := List.mem_map_of_mem (matchOneAttendee roster) ha
      rwa [hmatch] at this
    · intro e h
      have h1 := congrArg List.head? h
      have h2 : (some 'n' : Option Char) = some 'f' := h1
      exact absurd h2 (by decide)
    · intro rest
      rcases hc : certOk a
      · simp [certLoopCount, hc]
      · simp [certLoopCount, hc, hsend (smtp a)]

/-- Witness for C7 at a concrete unmatched attendee. -/
theorem unmatchedAttendee_spec_witness :
    matchOneAttendee exRoster exUnmatched = exUnmatched ∧
    (exUnmatched ∈ [exUnmatched] → exUnmatched ∈ matchAttendeesWithEmails [exUnmatched] exRoster) ∧
    (∀ smtpRes : Except Str Unit,
        sendIndividualCertificateEmail smtpRes exUnmatched
          = Except.error (noEmailErr exUnmatched.Name)) ∧
    (∀ e : Str, noEmailErr exUnmatched.Name ≠ smtpFailErr e) ∧
    (∀ rest : List Attendee,
        certLoopCount (fun _ => true) (fun _ => Except.ok ()) (exUnmatched :: rest)
          = certLoopCount (fun _ => true) (fun _ => Except.ok ()) rest) :=
  unmatchedAttendee_spec [exUnmatched] exRoster exUnmatched
    (fun _ => Except.ok ()) (fun _ => true) (by decide) (by decide)

/-! ## C4: the two date parsers are distinct -/

/-- Claim C4 counterexample: the numeric input `45678` parses in the notice
pipeline's `parseDate` (serial fallback) but fails in the certificate
pipeline's `parseFlexibleDate`, so the two parsers are not one shared
function. -/
theorem dateParsersDistinct_cex :
    parseDate (("45678").toList) ≠ parseFlexibleDate (("45678").toList) := by
  intro h
  have h1 : (parseDate (("45678").toList)).isOk = true := by decide
  rw [h] at h1
  have h2 : (parseFlexibleDate (("45678").toList)).isOk = false := by decide
  rw [h1] at h2
  exact Bool.noConfusion h2

/-- Claim C4 amended: the pipelines use two separate parsers that agree on shared
formats such as ISO `YYYY-MM-DD` but differ elsewhere: only `parseDate`
accepts `YYYY/MM/DD` and the spreadsheet-serial fallback, only
`parseFlexibleDate` accepts day-first textual dates, and on a day-first
input the two return different timestamps. -/
theorem dateParsersDistinct_amended :
    parseDate (("2025-10-15").toList) = Except.ok (dateSec 2025 10 15) ∧
    parseFlexibleDate (("2025-10-15").toList) = Except.ok (dateSec 2025 10 15) ∧
    parseDate (("45678").toList) = Except.ok (excelEpochSec + 45678 * 86400) ∧
    (parseFlexibleDate (("45678").toList)).isOk = false ∧
    parseDate (("2025/10/15").toList) = Except.ok (dateSec 2025 10 15) ∧
    (parseFlexibleDate (("2025/10/15").toList)).isOk = false ∧
    parseFlexibleDate (("2 January 2026").toList) = Except.ok (dateSec 2026 1 2) ∧
    parseDate (("2 January 2026").toList) = Except.ok (excelEpochSec + 2 * 86400) :=
  ⟨rfl, rfl, rfl, rfl, rfl, rfl, rfl, rfl⟩

/-! ## C5: the spreadsheet-serial fallback of parseDate -/

/-- Claim C5 counterexample: the claim restricts the serial fallback to
numeric-only input without separators, but `fmt.Sscanf` scans a numeric
value from the FRONT of the string: `13/4/2025` (month 13, so every
textual format fails) contains separators and is still interpreted as
serial day 13. -/
theorem serialFallback_cex :
    parseDate (("13/4/2025").toList) = Except.ok (excelEpochSec + 13 * 86400) ∧
    '/' ∈ (("13/4/2025").toList) ∧
    tryFormats noticeFormats (("13/4/2025").toList) = none :=
  ⟨rfl, by decide, by decide⟩

/-- Claim C5 amended: the fallback (1899-12-30 plus the scanned, truncated day
count) applies exactly when every textual format has failed and the input
scans as a positive number; inputs whose positive numeric value is merely a
leading portion of the text (not only numeric-only inputs) are interpreted
this way; when neither a format nor the fallback applies, parsing fails
with an error carrying the original string. -/
theorem serialFallback_amended :
    (∀ s : Str, ∀ t : Int, tryFormats noticeFormats s = some t →
        parseDate s = Except.ok t) ∧
    (∀ s : Str, ∀ n : Nat, tryFormats noticeFormats s = none → scanSerialDays s = some n →
        parseDate s = Except.ok (excelEpochSec + (n : Int) * 86400)) ∧
    (∀ s : Str, tryFormats noticeFormats s = none → scanSerialDays s = none →
        parseDate s = Except.error (("unable to parse date: ").toList ++ s)) ∧
    parseDate (("13/4/2025").toList) = Except.ok (excelEpochSec + 13 * 86400) := by
  refine ⟨?_, ?_, ?_, rfl⟩
  · intro s t h; unfold parseDate; rw [h]
  · intro s n h1 h2; unfold parseDate; rw [h1, h2]
  · intro s h1 h2; unfold parseDate; rw [h1, h2]; rfl

/-- Witness for C5 (amended) at the numeric input `45678`. -/
theorem serialFallback_amended_witness :
    parseDate (("45678").toList) = Except.ok (excelEpochSec + ((45678 : Nat) : Int) * 86400) :=
  serialFallback_amended.2.1 (("45678").toList) 45678 (by decide) (by decide)

/-! ## Column-scan characterizations -/

lemma lastIdxFrom_eq_neg_iff (p : Str → Bool) :
    ∀ (l : List Str) (i : Nat) (acc : Int),
      lastIdxFrom p l i acc = -1 ↔ (acc = -1 ∧ l.any p = false) := by
  intro l
  induction l with
  | nil => intro i acc; simp [lastIdxFrom]
  | cons c rest ih =>
    intro i acc
    rcases h : p c
    · simp [lastIdxFrom, h, ih]
    · have hi : (i : Int) ≠ -1 := by omega
      simp [lastIdxFrom, h, ih, hi]

lemma lastIdx_eq_neg_iff (p : Str → Bool) (l : List Str) :
    lastIdx p l = -1 ↔ l.any p = false := by
  simp [lastIdx, lastIdxFrom_eq_neg_iff]

lemma attendance_firstIdx :
    ∀ (l : List Str) (i : Nat), attendanceNameCol l i = firstIdxFrom pNameCell l i := by
  intro l
  induction l with
  | nil => intro i; rfl
  | cons c rest ih =>
    intro i
    rcases h : containsStr (lowerStr c) nameKey
    · simp [attendanceNameCol, firstIdxFrom, pNameCell, h, ih]
    · simp [attendanceNameCol, firstIdxFrom, pNameCell, h]

lemma rosterLoop_name :
    ∀ (l : List Str) (i : Nat) (nc ec : Int),
      (rosterColsLoop l i (nc, ec)).1 = lastIdxFrom pNameCell l i nc := by
  intro l
  induction l with
  | nil => intro i nc ec; rfl
  | cons c rest ih =>
    intro i nc ec
    rcases hn : containsStr (lowerStr c) nameKey
    · rcases he : containsStr (lowerStr c) emailKey
      · simp [rosterColsLoop, lastIdxFrom, pNameCell, hn, he, ih]
      · simp [rosterColsLoop, lastIdxFrom, pNameCell, hn, he, ih]
    · simp [rosterColsLoop, lastIdxFrom, pNameCell, hn, ih]

lemma rosterLoop_email :
    ∀ (l : List Str) (i : Nat) (nc ec : Int),
      (rosterColsLoop l i (nc, ec)).2 = lastIdxFrom pEmailCell l i ec := by
  intro l
  induction l with
  | nil => intro i nc ec; rfl
  | cons c rest ih =>
    intro i nc ec
    rcases hn : containsStr (lowerStr c) nameKey
    · rcases he : containsStr (lowerStr c) emailKey
      · simp [rosterColsLoop, lastIdxFrom, pEmailCell, pNameCell, hn, he, ih]
      · simp [rosterColsLoop, lastIdxFrom, pEmailCell, pNameCell, hn, he, ih]
    · simp [rosterColsLoop, lastIdxFrom, pEmailCell, pNameCell, hn, ih]

lemma noticeLoop_date :
    ∀ (l : List Str) (i : Nat) (st : NoticeCols),
      (noticeColsLoop l i st).dateIdx = lastIdxFrom pDateCell l i st.dateIdx := by
  intro l
  induction l with
  | nil => intro i st; rfl
  | cons c rest ih =>
    intro i st
    simp only [noticeColsLoop, lastIdxFrom]
    rw [ih]
    congr 1
    by_cases h1 : keyOfCell c = dateKey
    · have hp : pDateCell c = true := by simp [pDateCell, h1]
      rw [if_pos h1, hp, if_pos rfl]
    · have hp : pDateCell c = false := by simp [pDateCell, h1]
      rw [hp]
      simp only [Bool.false_eq_true, if_false]
      split_ifs <;> simp_all

lemma noticeLoop_topic :
    ∀ (l : List Str) (i : Nat) (st : NoticeCols),
      (noticeColsLoop l i st).topicIdx = lastIdxFrom pTopicCell l i st.topicIdx := by
  intro l
  induction l with
  | nil => intro i st; rfl
  | cons c rest ih =>
    intro i st
    simp only [noticeColsLoop, lastIdxFrom]
    rw [ih]
    congr 1
    by_cases h1 : keyOfCell c = topicKey
    · have h0 : ¬ keyOfCell c = dateKey := by rw [h1]; decide
      have hp : pTopicCell c = true := by simp [pTopicCell, h1]
      rw [if_neg h0, if_pos h1, hp, if_pos rfl]
    · have hp : pTopicCell c = false := by simp [pTopicCell, h1]
      rw [hp]
      simp only [Bool.false_eq_true, if_false]
      split_ifs <;> simp_all

lemma noticeLoop_speaker :
    ∀ (l : List Str) (i : Nat) (st : NoticeCols),
      (noticeColsLoop l i st).speakerIdx = lastIdxFrom pSpeakerCell l i st.speakerIdx := by
  intro l
  induction l with
  | nil => intro i st; rfl
  | cons c rest ih =>
    intro i st
    simp only [noticeColsLoop, lastIdxFrom]
    rw [ih]
    congr 1
    by_cases h1 : keyOfCell c = speakerKey
    · have h0 : ¬ keyOfCell c = dateKey := by rw [h1]; decide
      have h0b : ¬ keyOfCell c = topicKey := by rw [h1]; decide
      have hp : pSpeakerCell c = true := by simp [pSpeakerCell, h1]
      rw [if_neg h0, if_neg h0b, if_pos h1, hp, if_pos rfl]
    · have hp : pSpeakerCell c = false := by simp [pSpeakerCell, h1]
      rw [hp]
      simp only [Bool.false_eq_true, if_false]
      split_ifs <;> simp_all

lemma noticeLoop_location :
    ∀ (l : List Str) (i : Nat) (st : NoticeCols),
      (noticeColsLoop l i st).locationIdx = lastIdxFrom pLocationCell l i st.locationIdx := by
  intro l
  induction l with
  | nil => intro i st; rfl
  | cons c rest ih =>
    intro i st
    simp only [noticeColsLoop, lastIdxFrom]
    rw [ih]
    congr 1
    by_cases h1 : keyOfCell c = locationKey
    · have h0 : ¬ keyOfCell c = dateKey := by rw [h1]; decide
      have h0b : ¬ keyOfCell c = topicKey := by rw [h1]; decide
      have h0c : ¬ keyOfCell c = speakerKey := by rw [h1]; decide
      have hp : pLocationCell c = true := by simp [pLocationCell, h1]
      rw [if_neg h0, if_neg h0b, if_neg h0c, if_pos h1, hp, if_pos rfl]
    · have hp : pLocationCell c = false := by simp [pLocationCell, h1]
      rw [hp]
      simp only [Bool.false_eq_true, if_false]
      split_ifs <;> simp_all

lemma noticeLoop_time :
    ∀ (l : List Str) (i : Nat) (st : NoticeCols),
      (noticeColsLoop l i st).timeIdx = lastIdxFrom pTimeCell l i st.timeIdx := by
  intro l
  induction l with
  | nil => intro i st; rfl
  | cons c rest ih =>
    intro i st
    simp only [noticeColsLoop, lastIdxFrom]
    rw [ih]
    congr 1
    by_cases h1 : keyOfCell c = timeKey
    · have h0 : ¬ keyOfCell c = dateKey := by rw [h1]; decide
      have h0b : ¬ keyOfCell c = topicKey := by rw [h1]; decide
      have h0c : ¬ keyOfCell c = speakerKey := by rw [h1]; decide
      have h0d : ¬ keyOfCell c = locationKey := by rw [h1]; decide
      rw [if_neg h0, if_neg h0b, if_neg h0c, if_neg h0d, if_pos h1]
      have hp : pTimeCell c = true := by simp [pTimeCell, h1]
      rw [hp, if_pos rfl]
    · have hp : pTimeCell c = false := by simp [pTimeCell, h1]
      rw [hp]
      simp only [Bool.false_eq_true, if_false]
      split_ifs <;> simp_all

lemma calRow_date :
    ∀ (l : List Str) (i r : Nat) (st : CalCols),
      (calRowScan l i r st).dateCol = lastIdxFrom pCalDate l i st.dateCol := by
  intro l
  induction l with
  | nil => intro i r st; rfl
  | cons c rest ih =>
    intro i r st
    simp only [calRowScan, lastIdxFrom]
    rw [ih]
    congr 1
    rcases h1 : containsStr (lowerStr c) dateKey
    · have hp : pCalDate c = false := by simp [pCalDate, h1]
      rw [hp]
      simp only [h1, Bool.false_eq_true, if_false]
      split_ifs <;> rfl
    · have hp : pCalDate c = true := by simp [pCalDate, h1]
      rw [hp]
      simp only [h1, if_true]

lemma calRow_topic :
    ∀ (l : List Str) (i r : Nat) (st : CalCols),
      (calRowScan l i r st).topicCol = lastIdxFrom pCalTopic l i st.topicCol := by
  intro l
  induction l with
  | nil => intro i r st; rfl
  | cons c rest ih =>
    intro i r st
    simp only [calRowScan, lastIdxFrom]
    rw [ih]
    congr 1
    rcases h1 : containsStr (lowerStr c) dateKey
    · rcases h2 : containsStr (lowerStr c) topicKey
      · have hp : pCalTopic c = false := by simp [pCalTopic, pCalDate, h1, h2]
        rw [hp]
        simp only [h1, h2, Bool.false_eq_true, if_false]
        split_ifs <;> rfl
      · have hp : pCalTopic c = true := by simp [pCalTopic, pCalDate, h1, h2]
        rw [hp]
        simp only [h1, h2, Bool.false_eq_true, if_false, if_true]
    · have hp : pCalTopic c = false := by simp [pCalTopic, pCalDate, h1]
      rw [hp]
      simp only [h1, Bool.false_eq_true, if_false, if_true]

lemma calRow_speaker :
    ∀ (l : List Str) (i r : Nat) (st : CalCols),
      (calRowScan l i r st).speakerCol = lastIdxFrom pCalSpeaker l i st.speakerCol := by
  intro l
  induction l with
  | nil => intro i r st; rfl
  | cons c rest ih =>
    intro i r st
    simp only [calRowScan, lastIdxFrom]
    rw [ih]
    congr 1
    rcases h1 : containsStr (lowerStr c) dateKey
    · rcases h2 : containsStr (lowerStr c) topicKey
      · rcases h3 : containsStr (lowerStr c) speakerKey
        · have hp : pCalSpeaker c = false := by simp [pCalSpeaker, pCalDate, h1, h2, h3]
          rw [hp]
          simp only [h1, h2, h3, Bool.false_eq_true, if_false]
          split_ifs <;> rfl
        · have hp : pCalSpeaker c = true := by simp [pCalSpeaker, pCalDate, h1, h2, h3]
          rw [hp]
          simp only [h1, h2, h3, Bool.false_eq_true, if_false, if_true]
      · have hp : pCalSpeaker c = false := by simp [pCalSpeaker, pCalDate, h1, h2]
        rw [hp]
        simp only [h1, h2, Bool.false_eq_true, if_false, if_true]
    · have hp : pCalSpeaker c = false := by simp [pCalSpeaker, pCalDate, h1]
      rw [hp]
      simp only [h1, Bool.false_eq_true, if_false, if_true]

/-! ## C3: how column detection really works -/

/-- Claim C3 counterexample: the notice-generator loader does NOT use substring
matching (a cell whose lowercasing contains `date` is not detected unless
it equals `date` after trimming), and the roster scan lets the LAST
matching cell win, not the first: with header `Name, Nickname, Email` the
name column resolves to index 1. -/
theorem columnDetect_cex :
    (containsStr (lowerStr (("Event Date").toList)) dateKey = true ∧
     (noticeCols [("Event Date").toList]).dateIdx = -1) ∧
    rosterCols [("Name").toList, ("Nickname").toList, ("Email").toList] = (1, 2) := by
  exact ⟨⟨by decide, by decide⟩, by decide⟩

/-- Claim C3 amended: the certificate-pipeline loaders match case-insensitively by
substring, but only the attendance scan takes the FIRST matching cell (its
loop breaks); the roster scan takes the LAST matching cell per target, with
the `name` arm of its else-if chain shadowing `email`; the notice-generator
loader instead compares the trimmed, lowercased cell for exact EQUALITY
with each keyword, and its `switch` also lets the last matching cell win. -/
theorem columnDetect_amended :
    (∀ header : List Str, attendanceNameCol header 0 = firstIdx pNameCell header) ∧
    (∀ header : List Str,
        rosterCols header = (lastIdx pNameCell header, lastIdx pEmailCell header)) ∧
    (∀ header : List Str, noticeCols header =
        ⟨lastIdx pDateCell header, lastIdx pTopicCell header, lastIdx pSpeakerCell header,
         lastIdx pLocationCell header, lastIdx pTimeCell header⟩) := by
  refine ⟨?_, ?_, ?_⟩
  · intro header; exact attendance_firstIdx header 0
  · intro header
    have h1 := rosterLoop_name header 0 (-1) (-1)
    have h2 := rosterLoop_email header 0 (-1) (-1)
    calc rosterCols header = ((rosterCols header).1, (rosterCols header).2) := rfl
      _ = (lastIdx pNameCell header, lastIdx pEmailCell header) := by
          rw [show (rosterCols header).1 = lastIdxFrom pNameCell header 0 (-1) from h1,
              show (rosterCols header).2 = lastIdxFrom pEmailCell header 0 (-1) from h2]
          rfl
  · intro header
    have e1 := noticeLoop_date header 0 ⟨-1, -1, -1, -1, -1⟩
    have e2 := noticeLoop_topic header 0 ⟨-1, -1, -1, -1, -1⟩
    have e3 := noticeLoop_speaker header 0 ⟨-1, -1, -1, -1, -1⟩
    have e4 := noticeLoop_location header 0 ⟨-1, -1, -1, -1, -1⟩
    have e5 := noticeLoop_time header 0 ⟨-1, -1, -1, -1, -1⟩
    calc noticeCols header
        = ⟨(noticeCols header).dateIdx, (noticeCols header).topicIdx,
           (noticeCols header).speakerIdx, (noticeCols header).locationIdx,
           (noticeCols header).timeIdx⟩ := rfl
      _ = ⟨lastIdx pDateCell header, lastIdx pTopicCell header, lastIdx pSpeakerCell header,
           lastIdx pLocationCell header, lastIdx pTimeCell header⟩ := by
          show NoticeCols.mk _ _ _ _ _ = NoticeCols.mk _ _ _ _ _
          rw [show (noticeCols header).dateIdx = lastIdxFrom pDateCell header 0 (-1) from e1,
              show (noticeCols header).topicIdx = lastIdxFrom pTopicCell header 0 (-1) from e2,
              show (noticeCols header).speakerIdx
                  = lastIdxFrom pSpeakerCell header 0 (-1) from e3,
              show (noticeCols header).locationIdx
                  = lastIdxFrom pLocationCell header 0 (-1) from e4,
              show (noticeCols header).timeIdx = lastIdxFrom pTimeCell header 0 (-1) from e5]
          rfl

/-! ## C6: required columns -/

/-- Claim C6 counterexample: a notice-generator header containing date, topic,
speaker and time but missing only the (claimed optional) location column is
rejected, and the error lists the whole required set rather than naming the
missing column. -/
theorem requiredColumns_cex :
    noticeHeaderCheck
        [("date").toList, ("topic").toList, ("speaker").toList, ("time").toList]
      = Except.error noticeRequiredErr ∧
    (noticeCols
        [("date").toList, ("topic").toList, ("speaker").toList, ("time").toList]).dateIdx
      ≠ -1 ∧
    (noticeCols
        [("date").toList, ("topic").toList, ("speaker").toList, ("time").toList]).topicIdx
      ≠ -1 ∧
    (noticeCols
        [("date").toList, ("topic").toList, ("speaker").toList, ("time").toList]).speakerIdx
      ≠ -1 := by
  exact ⟨rfl, by decide, by decide, by decide⟩

lemma notCols_date (header : List Str) :
    (noticeCols header).dateIdx = lastIdx pDateCell header :=
  noticeLoop_date header 0 ⟨-1, -1, -1, -1, -1⟩

lemma notCols_topic (header : List Str) :
    (noticeCols header).topicIdx = lastIdx pTopicCell header :=
  noticeLoop_topic header 0 ⟨-1, -1, -1, -1, -1⟩

lemma notCols_speaker (header : List Str) :
    (noticeCols header).speakerIdx = lastIdx pSpeakerCell header :=
  noticeLoop_speaker header 0 ⟨-1, -1, -1, -1, -1⟩

lemma notCols_location (header : List Str) :
    (noticeCols header).locationIdx = lastIdx pLocationCell header :=
  noticeLoop_location header 0 ⟨-1, -1, -1, -1, -1⟩

lemma notCols_time (header : List Str) :
    (noticeCols header).timeIdx = lastIdx pTimeCell header :=
  noticeLoop_time header 0 ⟨-1, -1, -1, -1, -1⟩

lemma any_true_of_lastIdx_ne (p : Str → Bool) (l : List Str) (h : lastIdx p l ≠ -1) :
    l.any p = true := by
  rcases hx : l.any p
  · exact absurd ((lastIdx_eq_neg_iff p l).mpr hx) h
  · rfl

lemma lastIdx_ne_of_any_true (p : Str → Bool) (l : List Str) (h : l.any p = true) :
    lastIdx p l ≠ -1 := by
  intro hc
  rw [lastIdx_eq_neg_iff] at hc
  rw [hc] at h
  exact Bool.noConfusion h

/-- Claim C6 amended: the notice-generator loader succeeds if and only if ALL FIVE
columns — date, topic, speaker, and also location and time — are present
(exact trimmed, lowercased match), failing with a generic message naming
the whole required set; the certificate calendar loader succeeds if and
only if date, topic and speaker cells (substring match, with the else-if
precedence of its scan) occur in the first two rows, location and time
being optional there. -/
theorem requiredColumns_amended :
    (∀ header : List Str, (noticeHeaderCheck header).isOk = true ↔
       (header.any pDateCell = true ∧ header.any pTopicCell = true ∧
        header.any pSpeakerCell = true ∧ header.any pLocationCell = true ∧
        header.any pTimeCell = true)) ∧
    (∀ rows : List (List Str), (calHeaderCheck rows).isOk = true ↔
       ((rows.take 2).any (fun row => row.any pCalDate) = true ∧
        (rows.take 2).any (fun row => row.any pCalTopic) = true ∧
        (rows.take 2).any (fun row => row.any pCalSpeaker) = true)) := by
  constructor
  · intro header
    have hD := notCols_date header
    have hT := notCols_topic header
    have hS := notCols_speaker header
    have hL := notCols_location header
    have hI := notCols_time header
    simp only [noticeHeaderCheck]
    split_ifs with h
    · simp only [Except.isOk, Except.toBool, Bool.false_eq_true, false_iff]
      rintro ⟨a1, a2, a3, a4, a5⟩
      rcases h with h | h | h | h | h
      · exact lastIdx_ne_of_any_true _ _ a1 (hD ▸ h)
      · exact lastIdx_ne_of_any_true _ _ a2 (hT ▸ h)
      · exact lastIdx_ne_of_any_true _ _ a3 (hS ▸ h)
      · exact lastIdx_ne_of_any_true _ _ a4 (hL ▸ h)
      · exact lastIdx_ne_of_any_true _ _ a5 (hI ▸ h)
    · push_neg at h
      obtain ⟨n1, n2, n3, n4, n5⟩ := h
      simp only [Except.isOk, Except.toBool, true_iff]
      exact ⟨any_true_of_lastIdx_ne _ _ (hD ▸ n1), any_true_of_lastIdx_ne _ _ (hT ▸ n2),
        any_true_of_lastIdx_ne _ _ (hS ▸ n3), any_true_of_lastIdx_ne _ _ (hL ▸ n4),
        any_true_of_lastIdx_ne _ _ (hI ▸ n5)⟩
  · intro rows
    rcases rows with _ | ⟨r0, rest⟩
    · decide
    · have hd1 : (calRowScan r0 0 0 ⟨-1, -1, -1, -1, -1, 0⟩).dateCol = lastIdx pCalDate r0 :=
        calRow_date r0 0 0 _
      have ht1 : (calRowScan r0 0 0 ⟨-1, -1, -1, -1, -1, 0⟩).topicCol = lastIdx pCalTopic r0 :=
        calRow_topic r0 0 0 _
      have hs1 : (calRowScan r0 0 0 ⟨-1, -1, -1, -1, -1, 0⟩).speakerCol
          = lastIdx pCalSpeaker r0 := calRow_speaker r0 0 0 _
      by_cases hb : (calRowScan r0 0 0 ⟨-1, -1, -1, -1, -1, 0⟩).dateCol ≠ -1 ∧
          (calRowScan r0 0 0 ⟨-1, -1, -1, -1, -1, 0⟩).topicCol ≠ -1 ∧
          (calRowScan r0 0 0 ⟨-1, -1, -1, -1, -1, 0⟩).speakerCol ≠ -1
      · have hscan : calScan (r0 :: rest) = calRowScan r0 0 0 ⟨-1, -1, -1, -1, -1, 0⟩ := by
          simp only [calScan]
          rw [if_pos hb]
        obtain ⟨b1, b2, b3⟩ := hb
        have a1 : r0.any pCalDate = true := any_true_of_lastIdx_ne _ _ (hd1 ▸ b1)
        have a2 : r0.any pCalTopic = true := any_true_of_lastIdx_ne _ _ (ht1 ▸ b2)
        have a3 : r0.any pCalSpeaker = true := any_true_of_lastIdx_ne _ _ (hs1 ▸ b3)
        simp only [calHeaderCheck]
        rw [hscan]
        rw [if_neg (by rintro (h | h | h)
                       · exact b1 h
                       · exact b2 h
                       · exact b3 h)]
        simp only [Except.isOk, Except.toBool, true_iff]
        refine ⟨?_, ?_, ?_⟩ <;> rcases rest with _ | ⟨r1, rest2⟩ <;>
          simp [List.any_cons, a1, a2, a3]
      · rcases rest with _ | ⟨r1, rest2⟩
        · have hscan : calScan [r0] = calRowScan r0 0 0 ⟨-1, -1, -1, -1, -1, 0⟩ := by
            simp only [calScan]
            rw [if_neg hb]
          simp only [calHeaderCheck]
          rw [hscan]
          split_ifs with h2
          · simp only [Except.isOk, Except.toBool, Bool.false_eq_true, false_iff]
            rintro ⟨a1, a2, a3⟩
            simp only [List.take, List.any_cons, List.any_nil, Bool.or_false] at a1 a2 a3
            apply hb
            exact ⟨hd1 ▸ lastIdx_ne_of_any_true _ _ a1, ht1 ▸ lastIdx_ne_of_any_true _ _ a2,
              hs1 ▸ lastIdx_ne_of_any_true _ _ a3⟩
          · push_neg at h2
            exact absurd ⟨h2.1, h2.2.1, h2.2.2⟩ hb
        · have hscan : calScan (r0 :: r1 :: rest2)
              = calRowScan r1 0 1 (calRowScan r0 0 0 ⟨-1, -1, -1, -1, -1, 0⟩) := by
            simp only [calScan]
            rw [if_neg hb]
          have hd2 := calRow_date r1 0 1 (calRowScan r0 0 0 ⟨-1, -1, -1, -1, -1, 0⟩)
          have ht2 := calRow_topic r1 0 1 (calRowScan r0 0 0 ⟨-1, -1, -1, -1, -1, 0⟩)
          have hs2 := calRow_speaker r1 0 1 (calRowScan r0 0 0 ⟨-1, -1, -1, -1, -1, 0⟩)
          have hdIff : (calScan (r0 :: r1 :: rest2)).dateCol = -1 ↔
              (r0.any pCalDate = false ∧ r1.any pCalDate = false) := by
            rw [hscan, hd2, lastIdxFrom_eq_neg_iff, hd1, lastIdx_eq_neg_iff, and_comm]
          have htIff : (calScan (r0 :: r1 :: rest2)).topicCol = -1 ↔
              (r0.any pCalTopic = false ∧ r1.any pCalTopic = false) := by
            rw [hscan, ht2, lastIdxFrom_eq_neg_iff, ht1, lastIdx_eq_neg_iff, and_comm]
          have hsIff : (calScan (r0 :: r1 :: rest2)).speakerCol = -1 ↔
              (r0.any pCalSpeaker = false ∧ r1.any pCalSpeaker = false) := by
            rw [hscan, hs2, lastIdxFrom_eq_neg_iff, hs1, lastIdx_eq_neg_iff, and_comm]
          have hAny : ∀ (p : Str → Bool),
              ((r0 :: r1 :: rest2).take 2).any (fun row => row.any p)
                = (r0.any p || r1.any p) := by
            intro p; simp [List.take, List.any_cons]
          simp only [calHeaderCheck]
          split_ifs with h2
          · simp only [Except.isOk, Except.toBool, Bool.false_eq_true, false_iff]
            rintro ⟨a1, a2, a3⟩
            rw [hAny] at a1 a2 a3
            rcases h2 with h | h | h
            · rw [hdIff] at h; rw [h.1, h.2] at a1; exact Bool.noConfusion a1
            · rw [htIff] at h; rw [h.1, h.2] at a2; exact Bool.noConfusion a2
            · rw [hsIff] at h; rw [h.1, h.2] at a3; exact Bool.noConfusion a3
          · have hOr : ∀ a b : Bool, ¬(a = false ∧ b = false) → (a || b) = true := by
              decide
            push_neg at h2
            obtain ⟨n1, n2, n3⟩ := h2
            have m1 : ¬(r0.any pCalDate = false ∧ r1.any pCalDate = false) :=
              fun hc => n1 (hdIff.mpr hc)
            have m2 : ¬(r0.any pCalTopic = false ∧ r1.any pCalTopic = false) :=
              fun hc => n2 (htIff.mpr hc)
            have m3 : ¬(r0.any pCalSpeaker = false ∧ r1.any pCalSpeaker = false) :=
              fun hc => n3 (hsIff.mpr hc)
            simp only [Except.isOk, Except.toBool, true_iff]
            rw [hAny, hAny, hAny]
            exact ⟨hOr _ _ m1, hOr _ _ m2, hOr _ _ m3⟩

/-! ## C8 and C1: notice-generator selection -/

lemma closestLoop_none_of_noFuture (now : Int) :
    ∀ l : List Event, (∀ e ∈ l, ¬ e.Date > now) → closestLoop now l none = none := by
  intro l
  induction l with
  | nil => intro _; rfl
  | cons e rest ih =>
    intro h
    have he : ¬ e.Date > now := h e (List.mem_cons_self e rest)
    simp only [closestLoop, if_neg he]
    exact ih (fun x hx => h x (List.mem_cons_of_mem e hx))

/-- Claim C8: when no loaded event is dated strictly after `now`, the run prints
the informational message, creates no output file and exits with code 0. -/
theorem noFutureNoop_spec (events : List Event) (now : Int)
    (h : ∀ e ∈ events, ¬ e.Date > now) :
    runNotice events now = NoticeOutcome.noFutureEvents ∧
    noticeMessage (runNotice events now) = some noFutureMsg ∧
    noticeCreatesFile (runNotice events now) = false ∧
    noticeExitCode (runNotice events now) = some 0 := by
  have hsel : selectClosestFuture events now = none := by
    unfold selectClosestFuture
    rw [closestLoop_none_of_noFuture now events h]
    rfl
  have hrun : runNotice events now = NoticeOutcome.noFutureEvents := by
    unfold runNotice
    rw [hsel]
  exact ⟨hrun, by rw [hrun]; rfl, by rw [hrun]; rfl, by rw [hrun]; rfl⟩

def exPastEvent : Event := ⟨dateSec 2025 10 1, ("old").toList, [], [], []⟩

/-- Witness for C8: a single past event relative to 2025-10-10. -/
theorem noFutureNoop_spec_witness :
    runNotice [exPastEvent] (dateSec 2025 10 10) = NoticeOutcome.noFutureEvents ∧
    noticeMessage (runNotice [exPastEvent] (dateSec 2025 10 10)) = some noFutureMsg ∧
    noticeCreatesFile (runNotice [exPastEvent] (dateSec 2025 10 10)) = false ∧
    noticeExitCode (runNotice [exPastEvent] (dateSec 2025 10 10)) = some 0 :=
  noFutureNoop_spec [exPastEvent] (dateSec 2025 10 10) (by decide)

lemma closestLoop_some_spec (now : Int) :
    ∀ (l : List Event) (c : Event) (m : Int), m = c.Date - now → c.Date > now →
    ∃ r, closestLoop now l (some (c, m)) = some (r, r.Date - now) ∧ r.Date > now ∧
      ((r = c ∧ ∀ x ∈ l, x.Date > now → m ≤ x.Date - now) ∨
       (∃ l1 l2, l = l1 ++ r :: l2 ∧ r.Date - now < m ∧
          (∀ x ∈ l1, x.Date > now → r.Date - now < x.Date - now) ∧
          (∀ x ∈ l2, x.Date > now → r.Date - now ≤ x.Date - now))) := by
  intro l
  induction l with
  | nil =>
    intro c m hm hc
    refine ⟨c, ?_, hc, Or.inl ⟨rfl, by simp⟩⟩
    simp only [closestLoop]
    rw [hm]
  | cons e rest ih =>
    intro c m hm hc
    by_cases he : e.Date > now
    · by_cases hlt : e.Date - now < m
      · obtain ⟨r, hr, hrf, hcase⟩ := ih e (e.Date - now) rfl he
        refine ⟨r, ?_, hrf, ?_⟩
        · simp only [closestLoop, if_pos he, if_pos hlt]
          exact hr
        · cases hcase with
          | inl hl =>
            obtain ⟨hre, hmin⟩ := hl
            subst hre
            right
            refine ⟨[], rest, by simp, hlt, by simp, ?_⟩
            intro x hx hxf
            exact hmin x hx hxf
          | inr hr2 =>
            obtain ⟨l1, l2, hsplit, hlt2, hstrict, hge⟩ := hr2
            right
            refine ⟨e :: l1, l2, by rw [hsplit]; rfl, by omega, ?_, hge⟩
            intro x hx hxf
            rcases List.mem_cons.mp hx with h1 | h1
            · subst h1; exact hlt2
            · exact hstrict x h1 hxf
      · obtain ⟨r, hr, hrf, hcase⟩ := ih c m hm hc
        refine ⟨r, ?_, hrf, ?_⟩
        · simp only [closestLoop, if_pos he, if_neg hlt]
          exact hr
        · cases hcase with
          | inl hl =>
            obtain ⟨hre, hmin⟩ := hl
            left
            refine ⟨hre, ?_⟩
            intro x hx hxf
            rcases List.mem_cons.mp hx with h1 | h1
            · subst h1; omega
            · exact hmin x h1 hxf
          | inr hr2 =>
            obtain ⟨l1, l2, hsplit, hlt2, hstrict, hge⟩ := hr2
            right
            refine ⟨e :: l1, l2, by rw [hsplit]; rfl, hlt2, ?_, hge⟩
            intro x hx hxf
            rcases List.mem_cons.mp hx with h1 | h1
            · subst h1; omega
            · exact hstrict x h1 hxf
    · obtain ⟨r, hr, hrf, hcase⟩ := ih c m hm hc
      refine ⟨r, ?_, hrf, ?_⟩
      · simp only [closestLoop, if_neg he]
        exact hr
      · cases hcase with
        | inl hl =>
          obtain ⟨hre, hmin⟩ := hl
          left
          refine ⟨hre, ?_⟩
          intro x hx hxf
          rcases List.mem_cons.mp hx with h1 | h1
          · subst h1; exact absurd hxf he
          · exact hmin x h1 hxf
        | inr hr2 =>
          obtain ⟨l1, l2, hsplit, hlt2, hstrict, hge⟩ := hr2
          right
          refine ⟨e :: l1, l2, by rw [hsplit]; rfl, hlt2, ?_, hge⟩
          intro x hx hxf
          rcases List.mem_cons.mp hx with h1 | h1
          · subst h1; exact absurd hxf he
          · exact hstrict x h1 hxf

/-- Claim C1: when some event is dated strictly after `now`, the selection returns
a future event splitting the list as `l1 ++ e :: l2` such that every future
event seen earlier (in `l1`) has a strictly larger positive time-until and
every future event overall has at least as large a time-until: the minimum
positive time-until with ties broken by first-seen order. -/
theorem noticeSelect_spec (events : List Event) (now : Int)
    (hex : ∃ e ∈ events, e.Date > now) :
    ∃ l1 e l2, events = l1 ++ e :: l2 ∧
      selectClosestFuture events now = some e ∧ e.Date > now ∧
      (∀ x ∈ l1, x.Date > now → e.Date - now < x.Date - now) ∧
      (∀ x ∈ events, x.Date > now → e.Date - now ≤ x.Date - now) := by
  induction events with
  | nil => simp at hex
  | cons e0 rest ih =>
    by_cases he : e0.Date > now
    · obtain ⟨r, hr, hrf, hcase⟩ := closestLoop_some_spec now rest e0 (e0.Date - now) rfl he
      have hsel : selectClosestFuture (e0 :: rest) now = some r := by
        unfold selectClosestFuture
        simp only [closestLoop, if_pos he]
        rw [hr]
        rfl
      cases hcase with
      | inl hl =>
        obtain ⟨hre, hmin⟩ := hl
        subst hre
        refine ⟨[], r, rest, rfl, hsel, hrf, by simp, ?_⟩
        intro x hx hxf
        rcases List.mem_cons.mp hx with h1 | h1
        · subst h1; omega
        · exact hmin x h1 hxf
      | inr hr2 =>
        obtain ⟨l1, l2, hsplit, hlt, hstrict, hge⟩ := hr2
        refine ⟨e0 :: l1, r, l2, by rw [hsplit]; rfl, hsel, hrf, ?_, ?_⟩
        · intro x hx hxf
          rcases List.mem_cons.mp hx with h1 | h1
          · subst h1; exact hlt
          · exact hstrict x h1 hxf
        · intro x hx hxf
          rcases List.mem_cons.mp hx with h1 | h1
          · subst h1; omega
          · rw [hsplit] at h1
            rcases List.mem_append.mp h1 with h2 | h2
            · exact le_of_lt (hstrict x h2 hxf)
            · rcases List.mem_cons.mp h2 with h3 | h3
              · subst h3; omega
              · exact hge x h3 hxf
    · have hex2 : ∃ x ∈ rest, x.Date > now := by
        rcases hex with ⟨x, hx, hxf⟩
        rcases List.mem_cons.mp hx with h1 | h1
        · subst h1; exact absurd hxf he
        · exact ⟨x, h1, hxf⟩
      obtain ⟨l1, r, l2, hsplit, hsel, hrf, hstrict, hglobal⟩ := ih hex2
      refine ⟨e0 :: l1, r, l2, by rw [hsplit]; rfl, ?_, hrf, ?_, ?_⟩
      · unfold selectClosestFuture at hsel ⊢
        simp only [closestLoop, if_neg he]
        exact hsel
      · intro x hx hxf
        rcases List.mem_cons.mp hx with h1 | h1
        · subst h1; exact absurd hxf he
        · exact hstrict x h1 hxf
      · intro x hx hxf
        rcases List.mem_cons.mp hx with h1 | h1
        · subst h1; exact absurd hxf he
        · exact hglobal x h1 hxf

def exEventPast : Event := ⟨dateSec 2025 10 1, ("t1").toList, [], [], []⟩

def exEventSoon : Event := ⟨dateSec 2025 10 15, ("t2").toList, [], [], []⟩

def exEventLater : Event := ⟨dateSec 2025 10 20, ("t3").toList, [], [], []⟩

/-- Witness for C1 at the spec's concrete example: events dated 2025-10-01,
2025-10-15 and 2025-10-20 with now = 2025-10-10 select the 2025-10-15
event. -/
theorem noticeSelect_spec_witness :
    (∃ l1 e l2, [exEventPast, exEventSoon, exEventLater] = l1 ++ e :: l2 ∧
      selectClosestFuture [exEventPast, exEventSoon, exEventLater] (dateSec 2025 10 10)
        = some e ∧ e.Date > dateSec 2025 10 10 ∧
      (∀ x ∈ l1, x.Date > dateSec 2025 10 10 →
          e.Date - dateSec 2025 10 10 < x.Date - dateSec 2025 10 10) ∧
      (∀ x ∈ [exEventPast, exEventSoon, exEventLater], x.Date > dateSec 2025 10 10 →
          e.Date - dateSec 2025 10 10 ≤ x.Date - dateSec 2025 10 10)) ∧
    selectClosestFuture [exEventPast, exEventSoon, exEventLater] (dateSec 2025 10 10)
      = some exEventSoon :=
  ⟨noticeSelect_spec [exEventPast, exEventSoon, exEventLater] (dateSec 2025 10 10)
    ⟨exEventSoon, by decide, by decide⟩, by decide⟩

/-! ## C2: certificate-pipeline event selection -/

lemma insertByLess_ne_nil (less : EventInfo → EventInfo → Bool) (a : EventInfo) :
    ∀ l : List EventInfo, insertByLess less a l ≠ [] := by
  intro l
  cases l with
  | nil => simp [insertByLess]
  | cons b t =>
    simp only [insertByLess]
    split <;> simp

lemma sortByLess_ne_nil (less : EventInfo → EventInfo → Bool) :
    ∀ l : List EventInfo, l ≠ [] → sortByLess less l ≠ [] := by
  intro l h
  cases l with
  | nil => exact absurd rfl h
  | cons a t => exact insertByLess_ne_nil less a (sortByLess less t)

lemma insertByLess_mem (less : EventInfo → EventInfo → Bool) (a : EventInfo) :
    ∀ (l : List EventInfo) (x : EventInfo), x ∈ insertByLess less a l → x = a ∨ x ∈ l := by
  intro l
  induction l with
  | nil =>
    intro x hx
    simp [insertByLess] at hx
    exact Or.inl hx
  | cons b t ih =>
    intro x hx
    simp only [insertByLess] at hx
    split at hx
    · rcases List.mem_cons.mp hx with h1 | h1
      · exact Or.inl h1
      · exact Or.inr h1
    · rcases List.mem_cons.mp hx with h1 | h1
      · exact Or.inr (h1 ▸ List.mem_cons_self b t)
      · rcases ih x h1 with h2 | h2
        · exact Or.inl h2
        · exact Or.inr (List.mem_cons_of_mem b h2)

lemma sortByLess_subset (less : EventInfo → EventInfo → Bool) :
    ∀ (l : List EventInfo) (x : EventInfo), x ∈ sortByLess less l → x ∈ l := by
  intro l
  induction l with
  | nil => intro x hx; simp [sortByLess] at hx
  | cons a t ih =>
    intro x hx
    simp only [sortByLess] at hx
    rcases insertByLess_mem less a (sortByLess less t) x hx with h1 | h1
    · exact h1 ▸ List.mem_cons_self a t
    · exact List.mem_cons_of_mem a (ih x h1)

lemma sortByLess_eq_nil (less : EventInfo → EventInfo → Bool) :
    ∀ l : List EventInfo, sortByLess less l = [] → l = [] := by
  intro l h
  cases l with
  | nil => rfl
  | cons a t =>
    exact absurd h (insertByLess_ne_nil less a (sortByLess less t))

/-- Head of the insertion sort is a maximum of the key when the comparator
agrees with the key order on the sorted list. -/
lemma sortByLess_head_max (less : EventInfo → EventInfo → Bool) (k : EventInfo → Int) :
    ∀ l : List EventInfo,
      (∀ a ∈ l, ∀ b ∈ l, less a b = decide (k b < k a)) →
      ∀ e t, sortByLess less l = e :: t → e ∈ l ∧ ∀ x ∈ l, k x ≤ k e := by
  intro l
  induction l with
  | nil => intro _ e t h; simp [sortByLess] at h
  | cons a l2 ih =>
    intro hcomp e t heq
    have hcomp2 : ∀ x ∈ l2, ∀ y ∈ l2, less x y = decide (k y < k x) := fun x hx y hy =>
      hcomp x (List.mem_cons_of_mem a hx) y (List.mem_cons_of_mem a hy)
    simp only [sortByLess] at heq
    rcases hs : sortByLess less l2 with _ | ⟨e2, t2⟩
    · have hl2 : l2 = [] := sortByLess_eq_nil less l2 hs
      rw [hs] at heq
      simp only [insertByLess] at heq
      injection heq with h1 h2
      subst h1
      refine ⟨List.mem_cons_self a l2, ?_⟩
      intro x hx
      rw [hl2] at hx
      rcases List.mem_cons.mp hx with h3 | h3
      · rw [h3]
      · simp at h3
    · rw [hs] at heq
      obtain ⟨he2, hmax⟩ := ih hcomp2 e2 t2 hs
      have hae2 : less a e2 = decide (k e2 < k a) :=
        hcomp a (List.mem_cons_self a l2) e2 (List.mem_cons_of_mem a he2)
      simp only [insertByLess] at heq
      by_cases hcond : less a e2 = true
      · rw [if_pos hcond] at heq
        injection heq with h1 h2
        subst h1
        have hk : k e2 < k a := by
          rw [hae2] at hcond
          exact of_decide_eq_true hcond
        refine ⟨List.mem_cons_self a l2, ?_⟩
        intro x hx
        rcases List.mem_cons.mp hx with h3 | h3
        · rw [h3]
        · exact le_trans (hmax x h3) (le_of_lt hk)
      · rw [if_neg hcond] at heq
        injection heq with h1 h2
        subst h1
        have hk : ¬ (k e2 < k a) := by
          intro hlt
          exact hcond (by rw [hae2]; exact decide_eq_true hlt)
        refine ⟨List.mem_cons_of_mem a he2, ?_⟩
        intro x hx
        rcases List.mem_cons.mp hx with h3 | h3
        · rw [h3]; omega
        · exact hmax x h3

lemma isPast_parse (now : Int) (e : EventInfo) (h : isPastEvent now e = true) :
    parseFlexibleDate e.Date = Except.ok (parsedKey e) ∧ parsedKey e < now := by
  unfold isPastEvent at h
  unfold parsedKey
  cases hp : parseFlexibleDate e.Date with
  | error m =>
    rw [hp] at h
    exact Bool.noConfusion h
  | ok d =>
    rw [hp] at h
    exact ⟨rfl, of_decide_eq_true h⟩

/-- Claim C2: for a non-empty event list the certificate selection returns an
event; when some event parses as strictly past, the result is a past event
whose parsed date is maximal among the past events; when none does, the
result falls back to the full unfiltered event list. -/
theorem certSelect_spec (events : List EventInfo) (now : Int) (hne : events ≠ []) :
    ∃ e, selectMostRecentEvent events now = some e ∧
      (events.filter (isPastEvent now) = [] → e ∈ events) ∧
      (events.filter (isPastEvent now) ≠ [] →
        e ∈ events.filter (isPastEvent now) ∧
        ∀ x ∈ events.filter (isPastEvent now), parsedKey x ≤ parsedKey e) := by
  rcases events with _ | ⟨a, rest⟩
  · exact absurd rfl hne
  by_cases hp : ((a :: rest).filter (isPastEvent now)).isEmpty
  · have hpe : (a :: rest).filter (isPastEvent now) = [] := by
      rwa [List.isEmpty_iff] at hp
    have hsel : selectMostRecentEvent (a :: rest) now
        = (sortByLess eventLess (a :: rest)).head? := by
      simp only [selectMostRecentEvent]
      rw [if_pos hp]
    obtain ⟨e, t, heq⟩ :=
      List.exists_cons_of_ne_nil (sortByLess_ne_nil eventLess (a :: rest) (by simp))
    refine ⟨e, ?_, ?_, ?_⟩
    · rw [hsel, heq]; rfl
    · intro _
      exact sortByLess_subset eventLess (a :: rest) e (heq ▸ List.mem_cons_self e t)
    · intro hno
      exact absurd hpe hno
  · have hne2 : (a :: rest).filter (isPastEvent now) ≠ [] := by
      intro hc
      exact hp (by rw [hc]; rfl)
    have hsel : selectMostRecentEvent (a :: rest) now
        = (sortByLess eventLess ((a :: rest).filter (isPastEvent now))).head? := by
      simp only [selectMostRecentEvent]
      rw [if_neg hp]
    obtain ⟨e, t, heq⟩ :=
      List.exists_cons_of_ne_nil (sortByLess_ne_nil eventLess _ hne2)
    have hcomp : ∀ x ∈ (a :: rest).filter (isPastEvent now),
        ∀ y ∈ (a :: rest).filter (isPastEvent now),
        eventLess x y = decide (parsedKey y < parsedKey x) := by
      intro x hx y hy
      obtain ⟨hx1, _⟩ := isPast_parse now x (List.mem_filter.mp hx).2
      obtain ⟨hy1, _⟩ := isPast_parse now y (List.mem_filter.mp hy).2
      unfold eventLess
      rw [hx1, hy1]
    obtain ⟨hmem, hmax⟩ := sortByLess_head_max eventLess parsedKey _ hcomp e t heq
    refine ⟨e, ?_, ?_, ?_⟩
    · rw [hsel, heq]; rfl
    · intro hc
      exact absurd hc hne2
    · intro _
      exact ⟨hmem, hmax⟩

def exCertOld : EventInfo := ⟨("2024-01-01").toList, ("t1").toList, ("s1").toList, [], []⟩

def exCertNew : EventInfo := ⟨("2024-06-01").toList, ("t2").toList, ("s2").toList, [], []⟩

/-- Witness for C2 at the spec's concrete example: among the past events
dated 2024-01-01 and 2024-06-01 (now = 2025-01-01) the selection picks the
2024-06-01 event. -/
theorem certSelect_spec_witness :
    (∃ e, selectMostRecentEvent [exCertOld, exCertNew] (dateSec 2025 1 1) = some e ∧
      ([exCertOld, exCertNew].filter (isPastEvent (dateSec 2025 1 1)) = [] →
          e ∈ [exCertOld, exCertNew]) ∧
      ([exCertOld, exCertNew].filter (isPastEvent (dateSec 2025 1 1)) ≠ [] →
          e ∈ [exCertOld, exCertNew].filter (isPastEvent (dateSec 2025 1 1)) ∧
          ∀ x ∈ [exCertOld, exCertNew].filter (isPastEvent (dateSec 2025 1 1)),
            parsedKey x ≤ parsedKey e)) ∧
    selectMostRecentEvent [exCertOld, exCertNew] (dateSec 2025 1 1) = some exCertNew :=
  ⟨certSelect_spec [exCertOld, exCertNew] (dateSec 2025 1 1) (by decide), by decide⟩
